import Mathlib

/-!
Shallow embedding of the thermal performance engine of Thermo-Virtual
(src/App.jsx).  The engine is the `physics` memo at src/App.jsx lines
130-142; the configuration state and material catalog are at lines
110-128; the clean-system reset button is at line 217.

JavaScript numbers are modelled by `JsNum`: a finite real, one of the two
infinities, or NaN.  Finite arithmetic is modelled exactly over ℝ
(IEEE-754 rounding and overflow of finite results are abstracted away, and
the signed zero -0 is identified with 0); the non-finite propagation rules
of the JS operators `+ - * /`, `Math.log` and `Number.prototype.toFixed`
are modelled case by case.
-/

namespace ThermoVirtual

/-- A JavaScript number: a finite real, +Infinity, -Infinity, or NaN. -/
inductive JsNum where
  | num (x : ℝ)
  | posInf
  | negInf
  | nan

namespace JsNum

/-- JS addition `a + b` on `JsNum`. -/
def add : JsNum → JsNum → JsNum
  | nan, _ => nan
  | _, nan => nan
  | num a, num b => num (a + b)
  | num _, posInf => posInf
  | num _, negInf => negInf
  | posInf, num _ => posInf
  | negInf, num _ => negInf
  | posInf, posInf => posInf
  | negInf, negInf => negInf
  | posInf, negInf => nan
  | negInf, posInf => nan

/-- JS subtraction `a - b` on `JsNum`. -/
def sub : JsNum → JsNum → JsNum
  | nan, _ => nan
  | _, nan => nan
  | num a, num b => num (a - b)
  | num _, posInf => negInf
  | num _, negInf => posInf
  | posInf, num _ => posInf
  | negInf, num _ => negInf
  | posInf, posInf => nan
  | negInf, negInf => nan
  | posInf, negInf => posInf
  | negInf, posInf => negInf

/-- JS multiplication `a * b` on `JsNum` (`0 * ±∞ = NaN`). -/
noncomputable def mul : JsNum → JsNum → JsNum
  | nan, _ => nan
  | _, nan => nan
  | num a, num b => num (a * b)
  | num a, posInf => if a = 0 then nan else if 0 < a then posInf else negInf
  | num a, negInf => if a = 0 then nan else if 0 < a then negInf else posInf
  | posInf, num b => if b = 0 then nan else if 0 < b then posInf else negInf
  | negInf, num b => if b = 0 then nan else if 0 < b then negInf else posInf
  | posInf, posInf => posInf
  | negInf, negInf => posInf
  | posInf, negInf => negInf
  | negInf, posInf => negInf

/-- JS division `a / b` on `JsNum` (`0 / 0 = NaN`, `x / 0 = ±∞` for
`x ≠ 0`, `x / ±∞ = 0` for finite `x`, `±∞ / ±∞ = NaN`; with -0
identified with 0, a zero divisor counts as +0). -/
noncomputable def div : JsNum → JsNum → JsNum
  | nan, _ => nan
  | _, nan => nan
  | num a, num b =>
      if b = 0 then (if a = 0 then nan else if 0 < a then posInf else negInf)
      else num (a / b)
  | num _, posInf => num 0
  | num _, negInf => num 0
  | posInf, num b => if 0 ≤ b then posInf else negInf
  | negInf, num b => if 0 ≤ b then negInf else posInf
  | posInf, posInf => nan
  | posInf, negInf => nan
  | negInf, posInf => nan
  | negInf, negInf => nan

/-- JS `Math.log`: natural log for positive arguments, `-∞` at `0`,
NaN for negative arguments and NaN, `+∞` at `+∞`. -/
noncomputable def log : JsNum → JsNum
  | num x => if 0 < x then num (Real.log x) else if x = 0 then negInf else nan
  | posInf => posInf
  | negInf => nan
  | nan => nan

/-- The numeric value denoted by `x.toFixed(1)`: the argument rounded to
one decimal place (JS rounds ties toward +∞, matching Mathlib `round`);
non-finite values print as "Infinity"/"NaN" and are kept as such. -/
noncomputable def toFixed1 : JsNum → JsNum
  | num x => num ((round (10 * x) : ℤ) / 10)
  | posInf => posInf
  | negInf => negInf
  | nan => nan

/-- The value is a finite real (neither an infinity nor NaN). -/
def isFinite : JsNum → Prop
  | num _ => True
  | posInf => False
  | negInf => False
  | nan => False

end JsNum

/-- One entry of the `materials` catalog (src/App.jsx lines 120-127). -/
structure Material where
  name : String
  k : ℝ
  color : String

/-- The material catalog (src/App.jsx lines 120-127). -/
def materials : List Material :=
  [⟨"Copper", 401, "#b87333"⟩,
   ⟨"Silver", 429, "#e5e7eb"⟩,
   ⟨"Steel", 50, "#94a3b8"⟩,
   ⟨"Graphite", 140, "#334155"⟩,
   ⟨"Glass", 1.1, "#a5f3fc"⟩,
   ⟨"PVC", 0.19, "#f1f5f9"⟩]

/-- The Copper catalog entry, the initial material (src/App.jsx line 128). -/
def copper : Material := ⟨"Copper", 401, "#b87333"⟩

/-- The configuration state (src/App.jsx lines 110-118).  All fields the
sliders produce are finite numbers. -/
structure Config where
  model : String
  tempIn : ℝ
  flow : ℝ
  length : ℝ
  radius : ℝ
  areaOverride : ℝ
  fouling : ℝ

/-- The slider/domain ranges of the configuration fields used by the
engine (src/App.jsx lines 160-163 and spec section 3). -/
def ValidConfig (c : Config) : Prop :=
  40 ≤ c.tempIn ∧ c.tempIn ≤ 150 ∧
  5 ≤ c.flow ∧ c.flow ≤ 100 ∧
  1 ≤ c.areaOverride ∧ c.areaOverride ≤ 50 ∧
  0 ≤ c.fouling ∧ c.fouling ≤ 0.01

/-- One sample of the temperature profile (src/App.jsx lines 136-140):
`{ dist: i, Hot: ..., Cold: ... }`. -/
structure ProfilePoint where
  dist : ℕ
  Hot : JsNum
  Cold : JsNum

/-- The record returned by the `physics` memo (src/App.jsx line 141). -/
structure Physics where
  Q : JsNum
  LMTD : JsNum
  U : JsNum
  data : List ProfilePoint
  Efficiency : JsNum

/-- `const cleanU = (mat.k / 0.05) * (config.flow / 50)` (src/App.jsx
line 131). -/
noncomputable def cleanU (c : Config) (m : Material) : JsNum :=
  JsNum.mul (JsNum.div (.num m.k) (.num 0.05)) (JsNum.div (.num c.flow) (.num 50))

/-- `const U = 1 / ((1 / cleanU) + config.fouling)` (src/App.jsx
line 132). -/
noncomputable def overallU (c : Config) (m : Material) : JsNum :=
  JsNum.div (.num 1) (JsNum.add (JsNum.div (.num 1) (cleanU c m)) (.num c.fouling))

/-- `const Efficiency = (U / cleanU) * 100` (src/App.jsx line 133). -/
noncomputable def efficiency (c : Config) (m : Material) : JsNum :=
  JsNum.mul (JsNum.div (overallU c m) (cleanU c m)) (.num 100)

/-- JS `x || y` where `x` is a finite number: `x` is falsy exactly when
it is (signed) zero, in which case `y` is taken (src/App.jsx line 134). -/
noncomputable def orFallback (x y : ℝ) : ℝ := if x = 0 then y else x

/-- `const LMTD = (config.tempIn - 40) / Math.log((config.tempIn - 25) / 15 || 1.1)`
(src/App.jsx line 134). -/
noncomputable def lmtd (c : Config) : JsNum :=
  JsNum.div (.num (c.tempIn - 40))
    (JsNum.log (.num (orFallback ((c.tempIn - 25) / 15) 1.1)))

/-- `const Q = (U * config.areaOverride * LMTD) / 1000` (src/App.jsx
line 135). -/
noncomputable def heatDuty (c : Config) (m : Material) : JsNum :=
  JsNum.div (JsNum.mul (JsNum.mul (overallU c m) (.num c.areaOverride)) (lmtd c))
    (.num 1000)

/-- Entry `i` of the `data` array (src/App.jsx lines 136-140):
`{ dist: i, Hot: (tempIn - (i * (Q/15))).toFixed(1), Cold: (25 + (i * (Q/25))).toFixed(1) }`. -/
noncomputable def profilePoint (c : Config) (m : Material) (i : ℕ) : ProfilePoint :=
  { dist := i
    Hot := (JsNum.sub (.num c.tempIn)
      (JsNum.mul (.num i) (JsNum.div (heatDuty c m) (.num 15)))).toFixed1
    Cold := (JsNum.add (.num 25)
      (JsNum.mul (.num i) (JsNum.div (heatDuty c m) (.num 25)))).toFixed1 }

/-- The complete `physics` computation (src/App.jsx lines 130-142),
returning `{ Q, LMTD, U, data, Efficiency }`. -/
noncomputable def physics (c : Config) (m : Material) : Physics :=
  { Q := heatDuty c m
    LMTD := lmtd c
    U := overallU c m
    data := (List.range 11).map (profilePoint c m)
    Efficiency := efficiency c m }

/-- The CLEAN SYSTEM button: `setConfig({...config, fouling: 0})`
(src/App.jsx line 217). -/
def cleanSystem (c : Config) : Config := { c with fouling := 0 }

/-- The initial configuration (src/App.jsx lines 110-118). -/
def cfg90 : Config := ⟨"ShellTube", 90, 25, 8, 0.3, 15, 0.0005⟩

/-- The initial configuration with the inlet temperature slid down to its
domain minimum 40 °C. -/
def cfg40 : Config := { cfg90 with tempIn := 40 }

/-- The initial configuration with inlet temperature 10 °C (outside the
slider range), making the log ratio (10-25)/15 negative. -/
def cfg10 : Config := { cfg90 with tempIn := 10 }

/-- The initial configuration with inlet temperature 25 °C (outside the
slider range), making the log ratio (25-25)/15 exactly zero. -/
def cfg25 : Config := { cfg90 with tempIn := 25 }

/-- The initial configuration with only the model selector changed. -/
def cfgPlate : Config := { cfg90 with model := "Plate" }

/-- A material with zero thermal conductivity (not in the catalog),
violating the k > 0 precondition. -/
def zeroK : Material := ⟨"Zero", 0, "#000000"⟩

/-! ### Constructor-case lemmas for the `JsNum` operations -/

theorem JsNum.add_num_num (a b : ℝ) : JsNum.add (.num a) (.num b) = .num (a + b) := rfl

theorem JsNum.sub_num_num (a b : ℝ) : JsNum.sub (.num a) (.num b) = .num (a - b) := rfl

theorem JsNum.mul_num_num (a b : ℝ) : JsNum.mul (.num a) (.num b) = .num (a * b) := rfl

theorem JsNum.div_num_num {b : ℝ} (a : ℝ) (hb : b ≠ 0) :
    JsNum.div (.num a) (.num b) = .num (a / b) := if_neg hb

theorem JsNum.div_nan_right (a : JsNum) : JsNum.div a .nan = .nan := by
  cases a <;> rfl

theorem JsNum.log_num_pos {x : ℝ} (hx : 0 < x) :
    JsNum.log (.num x) = .num (Real.log x) := if_pos hx

theorem JsNum.toFixed1_num (x : ℝ) :
    JsNum.toFixed1 (.num x) = .num ((round (10 * x) : ℤ) / 10) := rfl

/-! ### Helper lemmas: reduction of the engine to real arithmetic -/

theorem cleanU_eq (c : Config) (m : Material) :
    cleanU c m = .num (m.k / 0.05 * (c.flow / 50)) := by
  norm_num [cleanU, JsNum.div, JsNum.mul]

theorem k_pos_of_mem {m : Material} (hm : m ∈ materials) : 0 < m.k := by
  simp [materials] at hm
  rcases hm with h | h | h | h | h | h <;> subst h <;> norm_num

theorem u0_pos {c : Config} {m : Material} (hk : 0 < m.k) (hf : 0 < c.flow) :
    0 < m.k / 0.05 * (c.flow / 50) := by positivity

theorem denom_pos {c : Config} {m : Material} (hk : 0 < m.k) (hf : 0 < c.flow)
    (hfl : 0 ≤ c.fouling) :
    0 < 1 / (m.k / 0.05 * (c.flow / 50)) + c.fouling := by
  have h := u0_pos (c := c) hk hf
  positivity

theorem overallU_eq (c : Config) (m : Material)
    (h0 : m.k / 0.05 * (c.flow / 50) ≠ 0)
    (h1 : 1 / (m.k / 0.05 * (c.flow / 50)) + c.fouling ≠ 0) :
    overallU c m = .num (1 / (1 / (m.k / 0.05 * (c.flow / 50)) + c.fouling)) := by
  rw [overallU, cleanU_eq, JsNum.div_num_num 1 h0, JsNum.add_num_num,
    JsNum.div_num_num 1 h1]

theorem efficiency_eq {c : Config} {m : Material} {u : ℝ}
    (hU : overallU c m = .num u) (h0 : m.k / 0.05 * (c.flow / 50) ≠ 0) :
    efficiency c m = .num (u / (m.k / 0.05 * (c.flow / 50)) * 100) := by
  rw [efficiency, hU, cleanU_eq]
  simp [JsNum.div, JsNum.mul, h0]

theorem lmtd_eq_of_gt40 {c : Config} (ht : 40 < c.tempIn) :
    lmtd c = .num ((c.tempIn - 40) / Real.log ((c.tempIn - 25) / 15)) := by
  have hr1 : (1:ℝ) < (c.tempIn - 25) / 15 := by
    rw [lt_div_iff₀ (by norm_num : (0:ℝ) < 15)]; linarith
  have hr : (0:ℝ) < (c.tempIn - 25) / 15 := lt_trans one_pos hr1
  have hlog : 0 < Real.log ((c.tempIn - 25) / 15) := Real.log_pos hr1
  rw [lmtd, orFallback, if_neg (ne_of_gt hr)]
  simp [JsNum.log, JsNum.div, hr, ne_of_gt hlog]

theorem lmtd_nan_of_tempIn40 {c : Config} (ht : c.tempIn = 40) : lmtd c = .nan := by
  rw [lmtd, ht]
  norm_num [orFallback, JsNum.log, JsNum.div, Real.log_one]

theorem lmtd_nan_of_ratio_neg {c : Config} (ht : (c.tempIn - 25) / 15 < 0) :
    lmtd c = .nan := by
  rw [lmtd, orFallback, if_neg (ne_of_lt ht)]
  simp [JsNum.log, JsNum.div, not_lt.mpr (le_of_lt ht), ne_of_lt ht]

theorem lmtd_eq_of_ratio_zero {c : Config} (ht : (c.tempIn - 25) / 15 = 0) :
    lmtd c = .num ((c.tempIn - 40) / Real.log 1.1) := by
  rw [lmtd, orFallback, if_pos ht]
  have hl : Real.log 1.1 ≠ 0 := ne_of_gt (Real.log_pos (by norm_num))
  simp [JsNum.log, JsNum.div, (by norm_num : (0:ℝ) < 1.1), hl]

theorem heatDuty_eq {c : Config} {m : Material} {u L : ℝ}
    (hU : overallU c m = .num u) (hL : lmtd c = .num L) :
    heatDuty c m = .num (u * c.areaOverride * L / 1000) := by
  rw [heatDuty, hU, hL]
  norm_num [JsNum.mul, JsNum.div]

theorem physics_data_length (c : Config) (m : Material) :
    (physics c m).data.length = 11 := by
  simp [physics]

theorem physics_data_get (c : Config) (m : Material) (i : ℕ)
    (h : i < (physics c m).data.length) :
    (physics c m).data.get ⟨i, h⟩ = profilePoint c m i := by
  simp [physics]

theorem profilePoint_eq {c : Config} {m : Material} {q : ℝ}
    (hq : heatDuty c m = .num q) (i : ℕ) :
    profilePoint c m i =
      ⟨i, .num ((round (10 * (c.tempIn - i * (q / 15))) : ℤ) / 10),
          .num ((round (10 * (25 + i * (q / 25))) : ℤ) / 10)⟩ := by
  rw [profilePoint, hq]
  norm_num [JsNum.sub, JsNum.add, JsNum.mul, JsNum.div, JsNum.toFixed1]

theorem round_mono_of_le {x y : ℝ} (h : x ≤ y) : round x ≤ round y := by
  rw [round_eq, round_eq]
  exact Int.floor_mono (by linarith)

theorem u_le_u0 {u0 f : ℝ} (hu0 : 0 < u0) (hf : 0 ≤ f) :
    1 / (1 / u0 + f) ≤ u0 := by
  calc 1 / (1 / u0 + f) ≤ 1 / (1 / u0) :=
        one_div_le_one_div_of_le (by positivity) (by linarith)
    _ = u0 := one_div_one_div u0

theorem valid_cfg90 : ValidConfig cfg90 := by norm_num [ValidConfig, cfg90]

theorem copper_mem : copper ∈ materials := by
  rw [materials]; exact List.mem_cons_self _ _

/-! ### The claims -/

/-- C1: for every valid configuration and catalog material the engine computes
`cleanCoefficient_U0 = (k / 0.05) * (massFlowRate_kgps / 50)`,
`overallCoefficient_U = 1 / ((1 / cleanCoefficient_U0) + foulingFactor)`, and,
whenever `LMTD_K` is a finite number `L`,
`heatDuty_kW = (overallCoefficient_U * exchangerArea_m2 * L) / 1000`,
exactly as given. -/
theorem engine_formulas_exact (c : Config) (m : Material)
    (hc : ValidConfig c) (hm : m ∈ materials) :
    cleanU c m = .num (m.k / 0.05 * (c.flow / 50)) ∧
    (physics c m).U = .num (1 / (1 / (m.k / 0.05 * (c.flow / 50)) + c.fouling)) ∧
    ∀ L : ℝ, (physics c m).LMTD = .num L →
      (physics c m).Q =
        .num (1 / (1 / (m.k / 0.05 * (c.flow / 50)) + c.fouling) *
          c.areaOverride * L / 1000) := by
  obtain ⟨ht1, ht2, hf1, hf2, ha1, ha2, hfl1, hfl2⟩ := hc
  have hk := k_pos_of_mem hm
  have hu0 := u0_pos hk (by linarith : (0:ℝ) < c.flow)
  have hd := denom_pos hk (by linarith : (0:ℝ) < c.flow) hfl1
  have hU := overallU_eq c m (ne_of_gt hu0) (ne_of_gt hd)
  exact ⟨cleanU_eq c m, hU, fun L hL => heatDuty_eq hU hL⟩

/-- Witness for C1 at the initial configuration and Copper. -/
theorem engine_formulas_exact_witness :
    ValidConfig cfg90 ∧ copper ∈ materials ∧
    cleanU cfg90 copper = .num (copper.k / 0.05 * (cfg90.flow / 50)) ∧
    (physics cfg90 copper).U =
      .num (1 / (1 / (copper.k / 0.05 * (cfg90.flow / 50)) + cfg90.fouling)) ∧
    (physics cfg90 copper).Q =
      .num (1 / (1 / (copper.k / 0.05 * (cfg90.flow / 50)) + cfg90.fouling) *
        cfg90.areaOverride *
        ((cfg90.tempIn - 40) / Real.log ((cfg90.tempIn - 25) / 15)) / 1000) := by
  have h := engine_formulas_exact cfg90 copper valid_cfg90 copper_mem
  exact ⟨valid_cfg90, copper_mem, h.1, h.2.1,
    h.2.2 _ (lmtd_eq_of_gt40 (by norm_num [cfg90]))⟩

/-- C2 counterexample: at the valid configuration whose inlet temperature is
40 °C (the domain minimum) the engine computes `LMTD_K = 0 / log 1 = 0 / 0`,
which is NaN, so a NaN does reach the result on a valid configuration. -/
theorem lmtd_nan_at_domain_min_cx :
    ValidConfig cfg40 ∧ copper ∈ materials ∧
    (physics cfg40 copper).LMTD = .nan ∧
    ¬ (physics cfg40 copper).LMTD.isFinite := by
  have h : lmtd cfg40 = .nan := lmtd_nan_of_tempIn40 (by norm_num [cfg40, cfg90])
  refine ⟨by norm_num [ValidConfig, cfg40, cfg90], copper_mem, h, ?_⟩
  show ¬ (lmtd cfg40).isFinite
  rw [h]
  simp [JsNum.isFinite]

/-- C2 (amended): for every valid configuration whose inlet temperature is
strictly above 40 °C, and every catalog material, every numeric field of the
result — cleanCoefficient_U0, U, efficiency, LMTD_K, heatDuty_kW, and both
temperatures of every profile sample — is a finite number. -/
theorem results_finite_of_tempIn_gt40 (c : Config) (m : Material)
    (hc : ValidConfig c) (hm : m ∈ materials) (ht : 40 < c.tempIn) :
    (cleanU c m).isFinite ∧ (physics c m).U.isFinite ∧
    (physics c m).Efficiency.isFinite ∧ (physics c m).LMTD.isFinite ∧
    (physics c m).Q.isFinite ∧
    ∀ p ∈ (physics c m).data, p.Hot.isFinite ∧ p.Cold.isFinite := by
  obtain ⟨ht1, ht2, hf1, hf2, ha1, ha2, hfl1, hfl2⟩ := hc
  have hk := k_pos_of_mem hm
  have hu0 := u0_pos hk (by linarith : (0:ℝ) < c.flow)
  have hd := denom_pos hk (by linarith : (0:ℝ) < c.flow) hfl1
  have hU := overallU_eq c m (ne_of_gt hu0) (ne_of_gt hd)
  have hL := lmtd_eq_of_gt40 ht
  have hQ := heatDuty_eq hU hL
  have hE := efficiency_eq hU (ne_of_gt hu0)
  refine ⟨by rw [cleanU_eq]; trivial, ?_, ?_, ?_, ?_, ?_⟩
  · show (overallU c m).isFinite; rw [hU]; trivial
  · show (efficiency c m).isFinite; rw [hE]; trivial
  · show (lmtd c).isFinite; rw [hL]; trivial
  · show (heatDuty c m).isFinite; rw [hQ]; trivial
  · intro p hp
    simp only [physics, List.mem_map] at hp
    obtain ⟨i, _, rfl⟩ := hp
    rw [profilePoint_eq hQ]
    exact ⟨trivial, trivial⟩

/-- Witness for the amended C2 at the initial configuration and Copper. -/
theorem results_finite_witness :
    ValidConfig cfg90 ∧ copper ∈ materials ∧ (40:ℝ) < cfg90.tempIn ∧
    (cleanU cfg90 copper).isFinite ∧ (physics cfg90 copper).U.isFinite ∧
    (physics cfg90 copper).Efficiency.isFinite ∧
    (physics cfg90 copper).LMTD.isFinite ∧ (physics cfg90 copper).Q.isFinite := by
  have ht : (40:ℝ) < cfg90.tempIn := by norm_num [cfg90]
  have h := results_finite_of_tempIn_gt40 cfg90 copper valid_cfg90 copper_mem ht
  exact ⟨valid_cfg90, copper_mem, ht, h.1, h.2.1, h.2.2.1, h.2.2.2.1, h.2.2.2.2.1⟩

/-- C3 counterexample: at inlet temperature 10 °C the ratio (10-25)/15 = -1 is
strictly negative, yet the `|| 1.1` fallback does not trigger (a negative
number is truthy in JS), `Math.log` receives a negative argument, and
`LMTD_K` is NaN rather than a finite fallback-based value. -/
theorem lmtd_fallback_missing_cx :
    (cfg10.tempIn - 25) / 15 < 0 ∧ (physics cfg10 copper).LMTD = .nan ∧
    ¬ (physics cfg10 copper).LMTD.isFinite := by
  have hr : (cfg10.tempIn - 25) / 15 < 0 := by norm_num [cfg10, cfg90]
  have h : lmtd cfg10 = .nan := lmtd_nan_of_ratio_neg hr
  refine ⟨hr, h, ?_⟩
  show ¬ (lmtd cfg10).isFinite
  rw [h]
  simp [JsNum.isFinite]

/-- C3 (amended): the fallback divisor 1.1 is substituted exactly when
`(inletTemperature_C - 25) / 15` evaluates to zero (the only falsy finite
value), in which case `LMTD_K` is the finite value
`(inletTemperature_C - 40) / log 1.1`; when the ratio is strictly negative the
fallback does not trigger and `LMTD_K` is NaN. -/
theorem lmtd_fallback_only_at_zero (c : Config) (m : Material) :
    ((c.tempIn - 25) / 15 = 0 →
      (physics c m).LMTD = .num ((c.tempIn - 40) / Real.log 1.1)) ∧
    ((c.tempIn - 25) / 15 < 0 → (physics c m).LMTD = .nan) :=
  ⟨fun h => lmtd_eq_of_ratio_zero h, fun h => lmtd_nan_of_ratio_neg h⟩

/-- Witness for the amended C3 at inlet temperature 25 °C. -/
theorem lmtd_fallback_only_at_zero_witness :
    (cfg25.tempIn - 25) / 15 = 0 ∧
    (physics cfg25 copper).LMTD = .num ((cfg25.tempIn - 40) / Real.log 1.1) := by
  have h0 : (cfg25.tempIn - 25) / 15 = 0 := by norm_num [cfg25, cfg90]
  exact ⟨h0, (lmtd_fallback_only_at_zero cfg25 copper).1 h0⟩

/-- C4: for every valid configuration and catalog material,
`overallCoefficient_U ≤ cleanCoefficient_U0`, with equality iff
`foulingFactor = 0`. -/
theorem overallU_le_cleanU (c : Config) (m : Material)
    (hc : ValidConfig c) (hm : m ∈ materials) :
    ∃ u u0 : ℝ, (physics c m).U = .num u ∧ cleanU c m = .num u0 ∧
      u ≤ u0 ∧ (u = u0 ↔ c.fouling = 0) := by
  obtain ⟨ht1, ht2, hf1, hf2, ha1, ha2, hfl1, hfl2⟩ := hc
  have hk := k_pos_of_mem hm
  have hu0 : 0 < m.k / 0.05 * (c.flow / 50) := u0_pos hk (by linarith)
  have hd := denom_pos hk (by linarith : (0:ℝ) < c.flow) hfl1
  refine ⟨_, _, overallU_eq c m (ne_of_gt hu0) (ne_of_gt hd), cleanU_eq c m,
    u_le_u0 hu0 hfl1, ?_, ?_⟩
  · intro h
    have h2 : 1 / (m.k / 0.05 * (c.flow / 50)) + c.fouling =
        1 / (m.k / 0.05 * (c.flow / 50)) := by
      have h1 := congrArg (fun x => 1 / x) h
      simpa [one_div_one_div] using h1
    linarith
  · intro h
    rw [h, add_zero, one_div_one_div]

/-- Witness for C4 at the initial configuration and Copper. -/
theorem overallU_le_cleanU_witness :
    ValidConfig cfg90 ∧ copper ∈ materials ∧
    ∃ u u0 : ℝ, (physics cfg90 copper).U = .num u ∧
      cleanU cfg90 copper = .num u0 ∧
      u ≤ u0 ∧ (u = u0 ↔ cfg90.fouling = 0) :=
  ⟨valid_cfg90, copper_mem, overallU_le_cleanU cfg90 copper valid_cfg90 copper_mem⟩

/-- C5: for every valid configuration and catalog material,
`efficiency_pct = (overallCoefficient_U / cleanCoefficient_U0) * 100`, this
value lies in (0, 100], and it equals exactly 100 when `foulingFactor = 0`. -/
theorem efficiency_formula_range (c : Config) (m : Material)
    (hc : ValidConfig c) (hm : m ∈ materials) :
    ∃ e u u0 : ℝ, (physics c m).Efficiency = .num e ∧
      (physics c m).U = .num u ∧ cleanU c m = .num u0 ∧
      e = u / u0 * 100 ∧ 0 < e ∧ e ≤ 100 ∧ (c.fouling = 0 → e = 100) := by
  obtain ⟨ht1, ht2, hf1, hf2, ha1, ha2, hfl1, hfl2⟩ := hc
  have hk := k_pos_of_mem hm
  have hu0 : 0 < m.k / 0.05 * (c.flow / 50) := u0_pos hk (by linarith)
  have hd := denom_pos hk (by linarith : (0:ℝ) < c.flow) hfl1
  have hU := overallU_eq c m (ne_of_gt hu0) (ne_of_gt hd)
  refine ⟨_, _, _, efficiency_eq hU (ne_of_gt hu0), hU, cleanU_eq c m, rfl,
    ?_, ?_, ?_⟩
  · positivity
  · have hle := u_le_u0 hu0 hfl1
    have h1 : 1 / (1 / (m.k / 0.05 * (c.flow / 50)) + c.fouling) /
        (m.k / 0.05 * (c.flow / 50)) ≤ 1 := (div_le_one hu0).mpr hle
    nlinarith
  · intro h
    rw [h, add_zero, one_div_one_div, div_self (ne_of_gt hu0), one_mul]

/-- Witness for C5 at the initial configuration and Copper. -/
theorem efficiency_formula_range_witness :
    ValidConfig cfg90 ∧ copper ∈ materials ∧
    ∃ e u u0 : ℝ, (physics cfg90 copper).Efficiency = .num e ∧
      (physics cfg90 copper).U = .num u ∧ cleanU cfg90 copper = .num u0 ∧
      e = u / u0 * 100 ∧ 0 < e ∧ e ≤ 100 ∧ (cfg90.fouling = 0 → e = 100) :=
  ⟨valid_cfg90, copper_mem,
    efficiency_formula_range cfg90 copper valid_cfg90 copper_mem⟩

/-- C6: the temperature profile has exactly 11 entries; entry `i` has
`distanceIndex = i` (hence the indices are strictly increasing 0..10), and,
whenever `heatDuty_kW` is the finite number `q`, its hot temperature is
`inletTemperature_C - i * (q / 15)` and its cold temperature is
`25 + i * (q / 25)`, each rounded to 1 decimal place. -/
theorem temperatureProfile_spec (c : Config) (m : Material) :
    (physics c m).data.length = 11 ∧
    ∀ (i : ℕ) (h : i < (physics c m).data.length),
      ((physics c m).data.get ⟨i, h⟩).dist = i ∧
      ∀ q : ℝ, (physics c m).Q = .num q →
        ((physics c m).data.get ⟨i, h⟩).Hot =
          .num ((round (10 * (c.tempIn - i * (q / 15))) : ℤ) / 10) ∧
        ((physics c m).data.get ⟨i, h⟩).Cold =
          .num ((round (10 * (25 + i * (q / 25))) : ℤ) / 10) := by
  refine ⟨physics_data_length c m, fun i h => ?_⟩
  rw [physics_data_get]
  refine ⟨rfl, fun q hq => ?_⟩
  rw [profilePoint_eq hq]
  exact ⟨rfl, rfl⟩

/-- Witness for C6: entry 3 of the profile at the initial configuration. -/
theorem temperatureProfile_spec_witness :
    (physics cfg90 copper).Q =
      .num (1 / (1 / (copper.k / 0.05 * (cfg90.flow / 50)) + cfg90.fouling) *
        cfg90.areaOverride *
        ((cfg90.tempIn - 40) / Real.log ((cfg90.tempIn - 25) / 15)) / 1000) ∧
    (physics cfg90 copper).data.length = 11 ∧
    ((physics cfg90 copper).data.get
        ⟨3, by rw [physics_data_length]; norm_num⟩).dist = 3 ∧
    ((physics cfg90 copper).data.get
        ⟨3, by rw [physics_data_length]; norm_num⟩).Hot =
      .num ((round (10 * (cfg90.tempIn - 3 *
        (1 / (1 / (copper.k / 0.05 * (cfg90.flow / 50)) + cfg90.fouling) *
          cfg90.areaOverride *
          ((cfg90.tempIn - 40) / Real.log ((cfg90.tempIn - 25) / 15)) / 1000 /
          15))) : ℤ) / 10) ∧
    ((physics cfg90 copper).data.get
        ⟨3, by rw [physics_data_length]; norm_num⟩).Cold =
      .num ((round (10 * (25 + 3 *
        (1 / (1 / (copper.k / 0.05 * (cfg90.flow / 50)) + cfg90.fouling) *
          cfg90.areaOverride *
          ((cfg90.tempIn - 40) / Real.log ((cfg90.tempIn - 25) / 15)) / 1000 /
          25))) : ℤ) / 10) := by
  have hv := valid_cfg90
  obtain ⟨ht1, ht2, hf1, hf2, ha1, ha2, hfl1, hfl2⟩ := hv
  have hk := k_pos_of_mem copper_mem
  have hu0 := u0_pos (c := cfg90) hk (by linarith : (0:ℝ) < cfg90.flow)
  have hd := denom_pos (c := cfg90) hk (by linarith : (0:ℝ) < cfg90.flow) hfl1
  have hU := overallU_eq cfg90 copper (ne_of_gt hu0) (ne_of_gt hd)
  have hL := lmtd_eq_of_gt40 (c := cfg90) (by norm_num [cfg90])
  have hQ : (physics cfg90 copper).Q = _ := heatDuty_eq hU hL
  have h := (temperatureProfile_spec cfg90 copper).2 3
    (by rw [physics_data_length]; norm_num)
  refine ⟨hQ, (temperatureProfile_spec cfg90 copper).1, h.1, ?_, ?_⟩
  · exact (h.2 _ hQ).1
  · exact (h.2 _ hQ).2

/-- C7 counterexample: with a zero-conductivity material (violating the
k > 0 precondition) the engine does not reject with a DomainError: it still
returns a full result, with cleanCoefficient_U0 = 0, overallCoefficient_U = 0
(via 1/(1/0) = 1/∞), and efficiency NaN (0/0 scaled by 100). -/
theorem engine_accepts_nonpositive_k_cx :
    zeroK.k ≤ 0 ∧ cleanU cfg90 zeroK = .num 0 ∧
    (physics cfg90 zeroK).U = .num 0 ∧
    (physics cfg90 zeroK).Efficiency = .nan := by
  have hclean : cleanU cfg90 zeroK = .num 0 := by
    rw [cleanU_eq]; norm_num [zeroK, cfg90]
  have h1 : JsNum.div (.num 1) (cleanU cfg90 zeroK) = .posInf := by
    rw [hclean]; norm_num [JsNum.div]
  have hU : overallU cfg90 zeroK = .num 0 := by
    rw [overallU, h1]
    norm_num [JsNum.add, JsNum.div]
  have hE : efficiency cfg90 zeroK = .nan := by
    rw [efficiency, hU, hclean]
    norm_num [JsNum.div, JsNum.mul]
  exact ⟨by norm_num [zeroK], hclean, hU, hE⟩

/-- C7 (amended): the engine performs no input validation and never rejects:
for any input with non-positive thermal conductivity (and non-negative flow)
it still computes by the same formula, returning a non-positive
cleanCoefficient_U0 instead of raising a DomainError. -/
theorem engine_no_domain_rejection (c : Config) (m : Material)
    (hk : m.k ≤ 0) (hf : 0 ≤ c.flow) :
    cleanU c m = .num (m.k / 0.05 * (c.flow / 50)) ∧
    m.k / 0.05 * (c.flow / 50) ≤ 0 := by
  refine ⟨cleanU_eq c m, ?_⟩
  have h1 : m.k / 0.05 ≤ 0 :=
    div_nonpos_of_nonpos_of_nonneg hk (by norm_num)
  have h2 : (0:ℝ) ≤ c.flow / 50 := by positivity
  exact mul_nonpos_of_nonpos_of_nonneg h1 h2

/-- Witness for the amended C7 with the zero-conductivity material. -/
theorem engine_no_domain_rejection_witness :
    zeroK.k ≤ 0 ∧ (0:ℝ) ≤ cfg90.flow ∧
    cleanU cfg90 zeroK = .num (zeroK.k / 0.05 * (cfg90.flow / 50)) ∧
    zeroK.k / 0.05 * (cfg90.flow / 50) ≤ 0 := by
  have hk : zeroK.k ≤ 0 := by norm_num [zeroK]
  have hf : (0:ℝ) ≤ cfg90.flow := by norm_num [cfg90]
  have h := engine_no_domain_rejection cfg90 zeroK hk hf
  exact ⟨hk, hf, h.1, h.2⟩

/-- C8: two configurations that differ only in the exchanger model selector
(and share the material) yield identical results: the model selector has no
effect on any computed quantity. -/
theorem model_noninterference (c₁ c₂ : Config) (m : Material)
    (ht : c₁.tempIn = c₂.tempIn) (hf : c₁.flow = c₂.flow)
    (hl : c₁.length = c₂.length) (hr : c₁.radius = c₂.radius)
    (ha : c₁.areaOverride = c₂.areaOverride)
    (hfl : c₁.fouling = c₂.fouling) :
    physics c₁ m = physics c₂ m := by
  obtain ⟨mo₁, t₁, f₁, l₁, r₁, a₁, fo₁⟩ := c₁
  obtain ⟨mo₂, t₂, f₂, l₂, r₂, a₂, fo₂⟩ := c₂
  dsimp only at ht hf hl hr ha hfl
  subst ht hf hl hr ha hfl
  rfl

/-- Witness for C8: the initial configuration against the same configuration
with the Plate model selected. -/
theorem model_noninterference_witness :
    cfg90.tempIn = cfgPlate.tempIn ∧ cfg90.flow = cfgPlate.flow ∧
    cfg90.length = cfgPlate.length ∧ cfg90.radius = cfgPlate.radius ∧
    cfg90.areaOverride = cfgPlate.areaOverride ∧
    cfg90.fouling = cfgPlate.fouling ∧ cfg90.model ≠ cfgPlate.model ∧
    physics cfg90 copper = physics cfgPlate copper := by
  refine ⟨rfl, rfl, rfl, rfl, rfl, rfl, by simp [cfg90, cfgPlate], ?_⟩
  exact model_noninterference cfg90 cfgPlate copper rfl rfl rfl rfl rfl rfl

/-- C9: the CLEAN SYSTEM reset zeroes the fouling factor, leaves every other
field unchanged, and the recomputed efficiency on the reset configuration is
exactly 100. -/
theorem clean_system_reset (c : Config) (m : Material)
    (hc : ValidConfig c) (hm : m ∈ materials) (hpos : 0 < c.fouling) :
    (cleanSystem c).fouling = 0 ∧
    (cleanSystem c).model = c.model ∧ (cleanSystem c).tempIn = c.tempIn ∧
    (cleanSystem c).flow = c.flow ∧ (cleanSystem c).length = c.length ∧
    (cleanSystem c).radius = c.radius ∧
    (cleanSystem c).areaOverride = c.areaOverride ∧
    (physics (cleanSystem c) m).Efficiency = .num 100 := by
  obtain ⟨ht1, ht2, hf1, hf2, ha1, ha2, hfl1, hfl2⟩ := hc
  have hk := k_pos_of_mem hm
  have hu0 : 0 < m.k / 0.05 * (c.flow / 50) := u0_pos hk (by linarith)
  have hd : 0 < 1 / (m.k / 0.05 * (c.flow / 50)) + (0:ℝ) := by
    rw [add_zero]
    positivity
  have hU := overallU_eq (cleanSystem c) m (ne_of_gt hu0) (ne_of_gt hd)
  have hE := efficiency_eq hU (ne_of_gt hu0)
  refine ⟨rfl, rfl, rfl, rfl, rfl, rfl, rfl, ?_⟩
  show efficiency (cleanSystem c) m = .num 100
  rw [hE]
  congr 1
  show 1 / (1 / (m.k / 0.05 * (c.flow / 50)) + 0) /
    (m.k / 0.05 * (c.flow / 50)) * 100 = 100
  rw [add_zero, one_div_one_div, div_self (ne_of_gt hu0), one_mul]

/-- Witness for C9 at the initial configuration (fouling 0.0005 > 0). -/
theorem clean_system_reset_witness :
    ValidConfig cfg90 ∧ copper ∈ materials ∧ 0 < cfg90.fouling ∧
    (cleanSystem cfg90).fouling = 0 ∧
    (cleanSystem cfg90).model = cfg90.model ∧
    (cleanSystem cfg90).tempIn = cfg90.tempIn ∧
    (cleanSystem cfg90).flow = cfg90.flow ∧
    (cleanSystem cfg90).areaOverride = cfg90.areaOverride ∧
    (physics (cleanSystem cfg90) copper).Efficiency = .num 100 := by
  have hpos : (0:ℝ) < cfg90.fouling := by norm_num [cfg90]
  have h := clean_system_reset cfg90 copper valid_cfg90 copper_mem hpos
  exact ⟨valid_cfg90, copper_mem, hpos, h.1, h.2.1, h.2.2.1, h.2.2.2.1,
    h.2.2.2.2.2.2.1, h.2.2.2.2.2.2.2⟩

/-- C10: when `heatDuty_kW` is a finite non-negative number the hot
temperatures of the profile are non-increasing and the cold temperatures
non-decreasing as the distance index grows. -/
theorem profile_monotone (c : Config) (m : Material) (q : ℝ)
    (hq : (physics c m).Q = .num q) (h0 : 0 ≤ q) (i j : ℕ)
    (hi : i < (physics c m).data.length) (hj : j < (physics c m).data.length)
    (hij : i ≤ j) :
    (∃ a b : ℝ, ((physics c m).data.get ⟨i, hi⟩).Hot = .num a ∧
      ((physics c m).data.get ⟨j, hj⟩).Hot = .num b ∧ b ≤ a) ∧
    (∃ a b : ℝ, ((physics c m).data.get ⟨i, hi⟩).Cold = .num a ∧
      ((physics c m).data.get ⟨j, hj⟩).Cold = .num b ∧ a ≤ b) := by
  rw [physics_data_get, physics_data_get, profilePoint_eq hq,
    profilePoint_eq hq]
  have hij' : (i:ℝ) ≤ (j:ℝ) := Nat.cast_le.mpr hij
  have h15 : (0:ℝ) ≤ q / 15 := by positivity
  have h25 : (0:ℝ) ≤ q / 25 := by positivity
  have hm15 : (i:ℝ) * (q / 15) ≤ (j:ℝ) * (q / 15) :=
    mul_le_mul_of_nonneg_right hij' h15
  have hm25 : (i:ℝ) * (q / 25) ≤ (j:ℝ) * (q / 25) :=
    mul_le_mul_of_nonneg_right hij' h25
  constructor
  · refine ⟨_, _, rfl, rfl, ?_⟩
    have hr := round_mono_of_le
      (show 10 * (c.tempIn - (j:ℝ) * (q / 15)) ≤
        10 * (c.tempIn - (i:ℝ) * (q / 15)) by linarith)
    have hc : ((round (10 * (c.tempIn - (j:ℝ) * (q / 15))) : ℤ) : ℝ) ≤
        ((round (10 * (c.tempIn - (i:ℝ) * (q / 15))) : ℤ) : ℝ) := by
      exact_mod_cast hr
    linarith
  · refine ⟨_, _, rfl, rfl, ?_⟩
    have hr := round_mono_of_le
      (show 10 * (25 + (i:ℝ) * (q / 25)) ≤
        10 * (25 + (j:ℝ) * (q / 25)) by linarith)
    have hc : ((round (10 * (25 + (i:ℝ) * (q / 25))) : ℤ) : ℝ) ≤
        ((round (10 * (25 + (j:ℝ) * (q / 25))) : ℤ) : ℝ) := by
      exact_mod_cast hr
    linarith

/-- Witness for C10: indices 1 ≤ 4 of the profile at the initial
configuration, where the heat duty is a positive finite number. -/
theorem profile_monotone_witness :
    (physics cfg90 copper).Q =
      .num (1 / (1 / (copper.k / 0.05 * (cfg90.flow / 50)) + cfg90.fouling) *
        cfg90.areaOverride *
        ((cfg90.tempIn - 40) / Real.log ((cfg90.tempIn - 25) / 15)) / 1000) ∧
    (0:ℝ) ≤ 1 / (1 / (copper.k / 0.05 * (cfg90.flow / 50)) + cfg90.fouling) *
        cfg90.areaOverride *
        ((cfg90.tempIn - 40) / Real.log ((cfg90.tempIn - 25) / 15)) / 1000 ∧
    ((∃ a b : ℝ,
      ((physics cfg90 copper).data.get
        ⟨1, by rw [physics_data_length]; norm_num⟩).Hot = .num a ∧
      ((physics cfg90 copper).data.get
        ⟨4, by rw [physics_data_length]; norm_num⟩).Hot = .num b ∧ b ≤ a) ∧
    (∃ a b : ℝ,
      ((physics cfg90 copper).data.get
        ⟨1, by rw [physics_data_length]; norm_num⟩).Cold = .num a ∧
      ((physics cfg90 copper).data.get
        ⟨4, by rw [physics_data_length]; norm_num⟩).Cold = .num b ∧
        a ≤ b)) := by
  have hv := valid_cfg90
  obtain ⟨ht1, ht2, hf1, hf2, ha1, ha2, hfl1, hfl2⟩ := hv
  have hk := k_pos_of_mem copper_mem
  have hu0 := u0_pos (c := cfg90) hk (by linarith : (0:ℝ) < cfg90.flow)
  have hd := denom_pos (c := cfg90) hk (by linarith : (0:ℝ) < cfg90.flow) hfl1
  have hU := overallU_eq cfg90 copper (ne_of_gt hu0) (ne_of_gt hd)
  have hL := lmtd_eq_of_gt40 (c := cfg90) (by norm_num [cfg90])
  have hQ : (physics cfg90 copper).Q = _ := heatDuty_eq hU hL
  have hlog : (0:ℝ) < Real.log ((cfg90.tempIn - 25) / 15) :=
    Real.log_pos (by norm_num [cfg90])
  have h0 : (0:ℝ) ≤ 1 / (1 / (copper.k / 0.05 * (cfg90.flow / 50)) +
      cfg90.fouling) * cfg90.areaOverride *
      ((cfg90.tempIn - 40) / Real.log ((cfg90.tempIn - 25) / 15)) / 1000 := by
    have h1 : (0:ℝ) < cfg90.tempIn - 40 := by norm_num [cfg90]
    positivity
  exact ⟨hQ, h0, profile_monotone cfg90 copper _ hQ h0 1 4
    (by rw [physics_data_length]; norm_num)
    (by rw [physics_data_length]; norm_num) (by norm_num)⟩

end ThermoVirtual
